import Mathlib

/-!
Verification of the ai-commit / gity CLI core: the LLM provider layer
(`src/services/llm-service.ts`) and the interactive commit session loop
(`src/gity.ts`).  JavaScript strings are modelled as Lean `String`
(a wrapper around `List Char`); JavaScript truthiness of strings
(`""` is falsy) is modelled explicitly.
-/

namespace AiCommit

/-- `interface LLMProviderConfig` from llm-service: optional apiKey, model,
maxTokens. -/
structure LLMProviderConfig where
  apiKey : Option String
  model : Option String
  maxTokens : Option Nat
deriving Repr, DecidableEq

/-- JavaScript truthiness of an optional string: `undefined` and `""` are
falsy (`if (!config.apiKey)`). -/
def strOptTruthy : Option String → Bool
  | none => false
  | some s => s ≠ ""

/-- JavaScript `a || b` for an optional string `a`: yields `b` when `a` is
absent or the empty string. -/
def jsOrDefault (s : Option String) (fallback : String) : String :=
  match s with
  | none => fallback
  | some v => if v = "" then fallback else v

/-- `text.startsWith('"')`: the first character is a double quote. -/
def jsStartsWithQuote (s : String) : Bool :=
  match s.data with
  | [] => false
  | c :: _ => c = '"'

/-- `text.endsWith('"')`: the last character is a double quote. -/
def jsEndsWithQuote (s : String) : Bool :=
  match s.data.getLast? with
  | none => false
  | some c => c = '"'

/-- JavaScript `text.slice(1, -1)`: drop the first and the last character
(empty result when the string has fewer than two characters). -/
def jsSliceOneNegOne (s : String) : String :=
  String.mk ((s.data.drop 1).dropLast)

/-- `cleanLLMResponse` (llm-service): if the text is nonempty (JS truthiness)
and is wrapped in double quotes, remove them via `slice(1, -1)`. -/
def cleanLLMResponse (text : String) : String :=
  if text ≠ "" ∧ jsStartsWithQuote text ∧ jsEndsWithQuote text then
    jsSliceOneNegOne text
  else text

/-- Outcome of the `fetch` + `response.json()` part of a provider call:
either parsed data, or any throw/reject (network failure, bad body). -/
inductive FetchOutcome (α : Type)
  | success (data : α)
  | failure
deriving Repr, DecidableEq

/-- Shape of the parsed OpenAI chat-completions response body:
`\x7b choices?: [\x7b message?: \x7b content?: string \x7d \x7d] \x7d`. -/
structure OpenAIMessage where
  content : Option String
deriving Repr, DecidableEq

structure OpenAIChoice where
  message : Option OpenAIMessage
deriving Repr, DecidableEq

structure OpenAIResponse where
  choices : Option (List OpenAIChoice)
deriving Repr, DecidableEq

/-- `data.choices?.[0]?.message?.content` with optional chaining. -/
def OpenAIResponse.extractContent (data : OpenAIResponse) : Option String :=
  (data.choices.bind List.head?).bind fun c => c.message.bind fun m => m.content

/-- Shape of the parsed Anthropic messages response body:
`\x7b content?: [\x7b text?: string \x7d] \x7d`. -/
structure AnthropicBlock where
  text : Option String
deriving Repr, DecidableEq

structure AnthropicResponse where
  content : Option (List AnthropicBlock)
deriving Repr, DecidableEq

/-- `data.content?.[0]?.text` with optional chaining. -/
def AnthropicResponse.extractContent (data : AnthropicResponse) : Option String :=
  (data.content.bind List.head?).bind fun b => b.text

instance {ε α : Type} [DecidableEq ε] [DecidableEq α] : DecidableEq (Except ε α) := fun a b =>
  match a, b with
  | Except.error x, Except.error y =>
      if h : x = y then Decidable.isTrue (by rw [h])
      else Decidable.isFalse (by simp [h])
  | Except.ok x, Except.ok y =>
      if h : x = y then Decidable.isTrue (by rw [h])
      else Decidable.isFalse (by simp [h])
  | Except.error _, Except.ok _ => Decidable.isFalse (by simp)
  | Except.ok _, Except.error _ => Decidable.isFalse (by simp)

/-- Result of one provider `generateCommit` invocation: the value returned
or the error thrown, together with whether an outbound network request was
issued. -/
structure ProviderResult where
  result : Except String String
  requestMade : Bool
deriving Repr, DecidableEq

/-- `OpenAIProvider.generateCommit`: throw on a falsy apiKey; otherwise
perform the request; on any throw in the try block return the fallback
literal; otherwise extract the content (`|| "chore: update code"`) and
clean it. -/
def OpenAIProvider.generateCommit (diff : String) (config : LLMProviderConfig)
    (fetched : FetchOutcome OpenAIResponse) : ProviderResult :=
  if strOptTruthy config.apiKey = false then
    ⟨Except.error "API key is required for OpenAI provider", false⟩
  else
    match fetched with
    | FetchOutcome.failure => ⟨Except.ok "chore: update code", true⟩
    | FetchOutcome.success data =>
        ⟨Except.ok (cleanLLMResponse
            (jsOrDefault data.extractContent "chore: update code")), true⟩

/-- `AnthropicProvider.generateCommit`: same structure as the OpenAI
variant, with the Anthropic response schema. -/
def AnthropicProvider.generateCommit (diff : String) (config : LLMProviderConfig)
    (fetched : FetchOutcome AnthropicResponse) : ProviderResult :=
  if strOptTruthy config.apiKey = false then
    ⟨Except.error "API key is required for Anthropic provider", false⟩
  else
    match fetched with
    | FetchOutcome.failure => ⟨Except.ok "chore: update code", true⟩
    | FetchOutcome.success data =>
        ⟨Except.ok (cleanLLMResponse
            (jsOrDefault data.extractContent "chore: update code")), true⟩

/-- The two concrete provider implementations of the factory. -/
inductive LLMProviderKind
  | openai
  | anthropic
deriving Repr, DecidableEq

/-- JavaScript `s.toLowerCase()` restricted to per-character lowering
(the identifiers involved are ASCII). -/
def jsToLowerCase (s : String) : String :=
  String.mk (s.data.map Char.toLower)

/-- `getLLMProvider` (llm-service): switch on the lower-cased provider
name; unknown names fall through to the OpenAI provider. -/
def getLLMProvider (providerName : String) : LLMProviderKind :=
  if jsToLowerCase providerName = "openai" then LLMProviderKind.openai
  else if jsToLowerCase providerName = "anthropic" then LLMProviderKind.anthropic
  else LLMProviderKind.openai

/-- JavaScript `s.trim()`: remove whitespace from both ends. -/
def jsTrim (s : String) : String :=
  String.mk (((s.data.dropWhile Char.isWhitespace).reverse.dropWhile
    Char.isWhitespace).reverse)

/-- The shell command string built by the confirm branch of `promptUser`
(gity.ts line 216): `git commit -m "<commitMessage>"` with the message
interpolated unescaped inside double quotes. -/
def buildCommitCommand (commitMessage : String) : String :=
  "git commit -m \"" ++ commitMessage ++ "\""

/-- POSIX-shell word splitting restricted to what these command strings
contain: a space outside double quotes separates words, double quotes group
characters without being part of the word. -/
def shSplitAux : List Char → Bool → List Char → List (List Char) → List (List Char)
  | [], _, cur, acc =>
      ((if cur = [] then acc else cur.reverse :: acc)).reverse
  | c :: rest, inQ, cur, acc =>
      if c = '"' then shSplitAux rest (!inQ) cur acc
      else if c = ' ' ∧ inQ = false then
        (if cur = [] then shSplitAux rest inQ [] acc
         else shSplitAux rest inQ [] (cur.reverse :: acc))
      else shSplitAux rest inQ (c :: cur) acc

/-- The argument words a shell passes to the invoked program. -/
def shWords (cmd : String) : List String :=
  (shSplitAux cmd.data false [] []).map String.mk

/-- The single message argument that `git commit -m` receives from the
shell-parsed command, when the command has that shape. -/
def gitCommitMsgArg (cmd : String) : Option String :=
  match shWords cmd with
  | "git" :: "commit" :: "-m" :: arg :: _ => some arg
  | _ => none

/-- Result of one pass through the `answer === "e"` branch of `promptUser`
(gity.ts lines 197-203): the new commit message when the branch completes,
and whether the temporary file is still on disk afterwards. -/
structure EditStepResult where
  newMessage : Option String
  tempFileOnDisk : Bool
deriving Repr, DecidableEq

/-- The EDITING transition: `writeFileSync` puts the temp file on disk;
`execSync(editor)` may throw (`editorLaunchOk = false`); `readFileSync` may
throw (`readResult = none`); only after a successful read does `unlinkSync`
delete the file.  A throw propagates to the catch at the loop boundary
without reaching `unlinkSync`. -/
def editStep (commitMessage : String) (editorLaunchOk : Bool)
    (readResult : Option String) : EditStepResult :=
  if editorLaunchOk = false then ⟨none, true⟩
  else
    match readResult with
    | none => ⟨none, true⟩
    | some fileContent => ⟨some (jsTrim fileContent), false⟩

/-- How a session run ends: a `process.exit` with a code, or still waiting
for input/network (the supplied event lists ran out). -/
inductive Outcome
  | exited (code : Nat)
  | pending
deriving Repr, DecidableEq

/-- Observable trace of one session run: the diff argument of every
provider invocation, the shell commands issued to commit, the number of
`git diff --cached` reads, and how the run ended. -/
structure SessionTrace where
  providerDiffs : List String
  commitCmds : List String
  diffReads : Nat
  outcome : Outcome
deriving Repr, DecidableEq

/-- The `promptUser` loop of gity.ts (lines 194-227), driven by the list of
user input lines, the successive provider return values, and the successive
edit-step read results (`none` = the edit branch threw).  `commitOk` tells
whether `git commit` succeeds when invoked.  An exhausted event list leaves
the run `pending`. -/
def promptLoop (diff commitMessage : String) (inputs : List String)
    (provResps : List String) (edits : List (Option String))
    (commitOk : Bool) : SessionTrace :=
  match inputs with
  | [] => ⟨[], [], 0, Outcome.pending⟩
  | answer :: rest =>
    if answer = "e" then
      match edits with
      | [] => ⟨[], [], 0, Outcome.pending⟩
      | editRead :: erest =>
        match editRead with
        | none => ⟨[], [], 0, Outcome.exited 1⟩
        | some fileContent =>
            promptLoop diff (jsTrim fileContent) rest provResps erest commitOk
    else if answer = "r" then
      match provResps with
      | [] => ⟨[diff], [], 0, Outcome.pending⟩
      | resp :: prest =>
          let t := promptLoop diff resp rest prest edits commitOk
          ⟨diff :: t.providerDiffs, t.commitCmds, t.diffReads, t.outcome⟩
    else if answer = "q" then ⟨[], [], 0, Outcome.exited 0⟩
    else ⟨[], [buildCommitCommand commitMessage], 0,
          Outcome.exited (if commitOk then 0 else 1)⟩

/-- The commit-generation path of `main` in gity.ts (lines 173-229):
read the staged diff once, abort with exit 1 when it is blank, obtain the
first candidate from the provider, then run the prompt loop on the same
captured diff. -/
def runSession (gitDiff : String) (inputs : List String)
    (provResps : List String) (edits : List (Option String))
    (commitOk : Bool) : SessionTrace :=
  if jsTrim gitDiff = "" then ⟨[], [], 1, Outcome.exited 1⟩
  else
    match provResps with
    | [] => ⟨[gitDiff], [], 1, Outcome.pending⟩
    | firstResp :: prest =>
        let t := promptLoop gitDiff firstResp inputs prest edits commitOk
        ⟨gitDiff :: t.providerDiffs, t.commitCmds, 1 + t.diffReads, t.outcome⟩

/-- Number of occurrences of a given line among a list of input lines. -/
def countEq (a : String) : List String → Nat
  | [] => 0
  | x :: xs => (if x = a then 1 else 0) + countEq a xs

/-! ### Helper lemmas -/

theorem drop_one_dropLast_eq_nil (l : List Char) :
    (l.drop 1).dropLast = [] ↔ l.length ≤ 2 := by
  rw [← List.length_eq_zero, List.length_dropLast, List.length_drop]
  omega

theorem short_quoted_cases (l : List Char)
    (hs : jsStartsWithQuote (String.mk l) = true)
    (he : jsEndsWithQuote (String.mk l) = true)
    (hlen : l.length ≤ 2) : l = ['"'] ∨ l = ['"', '"'] := by
  match l with
  | [] => simp [jsStartsWithQuote] at hs
  | [c] =>
      left
      have hc : c = '"' := by simpa [jsStartsWithQuote] using hs
      simp [hc]
  | [c1, c2] =>
      right
      have h1 : c1 = '"' := by simpa [jsStartsWithQuote] using hs
      have h2 : c2 = '"' := by simpa [jsEndsWithQuote, List.getLast?] using he
      simp [h1, h2]
  | c1 :: c2 :: c3 :: rest => simp at hlen

/-- `cleanLLMResponse` yields the empty string exactly on the empty string
and on the one- and two-character all-quote strings. -/
theorem cleanLLMResponse_eq_empty_iff (s : String) :
    cleanLLMResponse s = "" ↔ s = "" ∨ s = "\"" ∨ s = "\"\"" := by
  constructor
  · intro h
    unfold cleanLLMResponse at h
    by_cases hg : s ≠ "" ∧ jsStartsWithQuote s ∧ jsEndsWithQuote s
    · obtain ⟨hne, hstart, hend⟩ := hg
      rw [if_pos ⟨hne, hstart, hend⟩] at h
      have hdata : (s.data.drop 1).dropLast = [] := by
        have h2 := congrArg String.data h
        simpa [jsSliceOneNegOne] using h2
      have hlen : s.data.length ≤ 2 := (drop_one_dropLast_eq_nil s.data).mp hdata
      obtain ⟨l⟩ := s
      rcases short_quoted_cases l hstart hend hlen with h1 | h1
      · right; left; rw [show ("\"" : String) = String.mk ['"'] from rfl, h1]
      · right; right; rw [show ("\"\"" : String) = String.mk ['"', '"'] from rfl, h1]
    · rw [if_neg hg] at h
      exact Or.inl h
  · rintro (h | h | h) <;> subst h <;> decide

/-- The prompt loop never re-reads the staged diff from version control. -/
theorem promptLoop_diffReads (diff commitMessage : String) (inputs : List String)
    (provResps : List String) (edits : List (Option String)) (commitOk : Bool) :
    (promptLoop diff commitMessage inputs provResps edits commitOk).diffReads = 0 := by
  induction inputs generalizing commitMessage provResps edits with
  | nil => simp [promptLoop]
  | cons answer rest ih =>
      by_cases h1 : answer = "e"
      · subst h1
        cases edits with
        | nil => simp [promptLoop]
        | cons e erest =>
            cases e with
            | none => simp [promptLoop]
            | some c => simpa [promptLoop] using ih (jsTrim c) provResps erest
      · by_cases h2 : answer = "r"
        · subst h2
          cases provResps with
          | nil => simp [promptLoop]
          | cons resp prest =>
              simpa [promptLoop] using ih resp prest edits
        · by_cases h3 : answer = "q" <;> simp [promptLoop, h1, h2, h3]

/-- Every provider invocation made from inside the prompt loop passes the
session's captured diff. -/
theorem promptLoop_providerDiffs (diff commitMessage : String) (inputs : List String)
    (provResps : List String) (edits : List (Option String)) (commitOk : Bool) :
    ∀ d ∈ (promptLoop diff commitMessage inputs provResps edits commitOk).providerDiffs,
      d = diff := by
  induction inputs generalizing commitMessage provResps edits with
  | nil => simp [promptLoop]
  | cons answer rest ih =>
      by_cases h1 : answer = "e"
      · subst h1
        cases edits with
        | nil => simp [promptLoop]
        | cons e erest =>
            cases e with
            | none => simp [promptLoop]
            | some c => simpa [promptLoop] using ih (jsTrim c) provResps erest
      · by_cases h2 : answer = "r"
        · subst h2
          cases provResps with
          | nil => simp [promptLoop]
          | cons resp prest =>
              intro d hd
              simp [promptLoop] at hd
              rcases hd with h | h
              · exact h
              · exact ih resp prest edits d h
        · by_cases h3 : answer = "q" <;> simp [promptLoop, h1, h2, h3]

/-- Reaching a `"q"` line after only edit/regenerate lines: no commit
command is issued and the loop exits 0. -/
theorem promptLoop_quit (diff : String) (pre : List String) : ∀ (post : List String)
    (commitMessage : String) (provResps : List String) (edits : List (Option String))
    (commitOk : Bool),
    (∀ x ∈ pre, x = "e" ∨ x = "r") →
    countEq "r" pre ≤ provResps.length →
    countEq "e" pre ≤ edits.length →
    (∀ e ∈ edits, e ≠ none) →
    (promptLoop diff commitMessage (pre ++ "q" :: post) provResps edits commitOk).commitCmds
        = [] ∧
    (promptLoop diff commitMessage (pre ++ "q" :: post) provResps edits commitOk).outcome
        = Outcome.exited 0 := by
  induction pre with
  | nil =>
      intro post commitMessage provResps edits commitOk _ _ _ _
      simp [promptLoop]
  | cons x pre' ih =>
      intro post commitMessage provResps edits commitOk hpre hprov hedit heditok
      rcases hpre x (List.mem_cons_self x pre') with hx | hx
      · subst hx
        cases edits with
        | nil => simp [countEq] at hedit
        | cons e erest =>
            cases e with
            | none => exact absurd rfl (heditok none (List.mem_cons_self none erest))
            | some c =>
                have hrec := ih post (jsTrim c) provResps erest commitOk
                  (fun y hy => hpre y (List.mem_cons_of_mem _ hy))
                  (by simpa [countEq] using hprov)
                  (by simp [countEq] at hedit; omega)
                  (fun e' he' => heditok e' (List.mem_cons_of_mem _ he'))
                simpa [promptLoop] using hrec
      · subst hx
        cases provResps with
        | nil => simp [countEq] at hprov
        | cons resp prest =>
            have hrec := ih post resp prest edits commitOk
              (fun y hy => hpre y (List.mem_cons_of_mem _ hy))
              (by simp [countEq] at hprov; omega)
              (by simpa [countEq] using hedit)
              heditok
            simpa [promptLoop] using hrec

/-- The quote-stripping normalization as the spec words it: remove one
leading and one trailing double-quote character when the text both starts
and ends with one, and leave the text unchanged otherwise. -/
def specQuoteStrip (s : String) : String :=
  if jsStartsWithQuote s ∧ jsEndsWithQuote s then jsSliceOneNegOne s else s

theorem jsOrDefault_of_ne (s fallback : String) (h : s ≠ "") :
    jsOrDefault (some s) fallback = s := by
  simp [jsOrDefault, h]

theorem cleanLLMResponse_eq_specQuoteStrip (s : String) (hs : s ≠ "") :
    cleanLLMResponse s = specQuoteStrip s := by
  unfold cleanLLMResponse specQuoteStrip
  by_cases h : jsStartsWithQuote s ∧ jsEndsWithQuote s
  · rw [if_pos ⟨hs, h.1, h.2⟩, if_pos h]
  · rw [if_neg (by tauto), if_neg h]

theorem jsOrDefault_of_absent_or_empty (opt : Option String) (fallback : String)
    (h : opt = none ∨ opt = some "") : jsOrDefault opt fallback = fallback := by
  rcases h with h | h <;> subst h <;> simp [jsOrDefault]

theorem clean_or_default_eq_empty_iff (opt : Option String) :
    cleanLLMResponse (jsOrDefault opt "chore: update code") = "" ↔
      opt = some "\"" ∨ opt = some "\"\"" := by
  cases opt with
  | none =>
      simp only [jsOrDefault]
      constructor
      · intro h; exact absurd h (by decide)
      · rintro (h | h) <;> exact Option.noConfusion h
  | some v =>
      by_cases hv : v = ""
      · subst hv
        simp only [jsOrDefault, if_pos rfl]
        constructor
        · intro h; exact absurd h (by decide)
        · rintro (h | h) <;> simp at h
      · simp only [jsOrDefault, if_neg hv]
        rw [cleanLLMResponse_eq_empty_iff]
        constructor
        · rintro (h | h | h)
          · exact absurd h hv
          · exact Or.inl (by rw [h])
          · exact Or.inr (by rw [h])
        · rintro (h | h)
          · right; left; exact Option.some.inj h
          · right; right; exact Option.some.inj h

/-! ### Claims -/

/-- Claim C1, counterexample: the raw model output "" is not returned
unchanged — the JavaScript `||` replaces the empty content with the
fallback literal before the quote-stripping step. -/
theorem c1_empty_output_counterexample :
    OpenAIProvider.generateCommit "+ add foo()" ⟨some "k", none, none⟩
        (FetchOutcome.success ⟨some [⟨some ⟨some ""⟩⟩]⟩)
      = ⟨Except.ok "chore: update code", true⟩ ∧
    ("chore: update code" : String) ≠ "" :=
  ⟨by decide, by decide⟩

/-- Claim C1 (amended): for every nonempty raw model output string s, the
message returned by generateCommit equals s with one leading and one
trailing double quote removed when s both starts and ends with a double
quote, and equals s unchanged otherwise; this normalization is the same
function for the OpenAI and Anthropic implementations.  (The empty output
is replaced by the fallback literal instead — see the counterexample.) -/
theorem c1_quote_strip_amended (diff : String) (config : LLMProviderConfig)
    (s : String) (hkey : strOptTruthy config.apiKey = true) (hs : s ≠ "") :
    OpenAIProvider.generateCommit diff config
        (FetchOutcome.success ⟨some [⟨some ⟨some s⟩⟩]⟩)
      = ⟨Except.ok (specQuoteStrip s), true⟩ ∧
    AnthropicProvider.generateCommit diff config
        (FetchOutcome.success ⟨some [⟨some s⟩]⟩)
      = ⟨Except.ok (specQuoteStrip s), true⟩ := by
  have hclean := cleanLLMResponse_eq_specQuoteStrip s hs
  constructor <;>
    simp [OpenAIProvider.generateCommit, AnthropicProvider.generateCommit,
      OpenAIResponse.extractContent, AnthropicResponse.extractContent,
      hkey, jsOrDefault_of_ne s _ hs, hclean]

theorem c1_quote_strip_amended_witness :
    OpenAIProvider.generateCommit "+ add foo()" ⟨some "k", none, none⟩
        (FetchOutcome.success ⟨some [⟨some ⟨some "\"feat: add foo function\""⟩⟩]⟩)
      = ⟨Except.ok (specQuoteStrip "\"feat: add foo function\""), true⟩ ∧
    AnthropicProvider.generateCommit "+ add foo()" ⟨some "k", none, none⟩
        (FetchOutcome.success ⟨some [⟨some "\"feat: add foo function\""⟩]⟩)
      = ⟨Except.ok (specQuoteStrip "\"feat: add foo function\""), true⟩ :=
  c1_quote_strip_amended "+ add foo()" ⟨some "k", none, none⟩
    "\"feat: add foo function\"" (by decide) (by decide)

/-- Claim C2 (confirmed): with an apiKey present, any throw of the network
request, the response, or the body parsing is swallowed: generateCommit
returns the fixed literal "chore: update code" for both providers rather
than propagating the failure. -/
theorem c2_provider_error_fallback (diff : String) (config : LLMProviderConfig)
    (hkey : strOptTruthy config.apiKey = true) :
    OpenAIProvider.generateCommit diff config FetchOutcome.failure
      = ⟨Except.ok "chore: update code", true⟩ ∧
    AnthropicProvider.generateCommit diff config FetchOutcome.failure
      = ⟨Except.ok "chore: update code", true⟩ := by
  constructor <;>
    simp [OpenAIProvider.generateCommit, AnthropicProvider.generateCommit, hkey]

theorem c2_provider_error_fallback_witness :
    OpenAIProvider.generateCommit "+ x" ⟨some "sk-1", none, none⟩ FetchOutcome.failure
      = ⟨Except.ok "chore: update code", true⟩ ∧
    AnthropicProvider.generateCommit "+ x" ⟨some "sk-1", none, none⟩ FetchOutcome.failure
      = ⟨Except.ok "chore: update code", true⟩ :=
  c2_provider_error_fallback "+ x" ⟨some "sk-1", none, none⟩ (by decide)

/-- Claim C3, refuting evidence (code bug): the confirm branch interpolates
the message unescaped into the shell string git commit -m "...", so for a
message containing double quotes the parsed -m argument the commit
executor receives differs from the message — the embedded quotes are
consumed by the shell instead of being passed through. -/
theorem c3_commit_command_mangles_message :
    buildCommitCommand "fix: handle \"quoted\" args"
      = "git commit -m \"fix: handle \"quoted\" args\"" ∧
    shWords (buildCommitCommand "fix: handle \"quoted\" args")
      = ["git", "commit", "-m", "fix: handle quoted args"] ∧
    gitCommitMsgArg (buildCommitCommand "fix: handle \"quoted\" args")
      ≠ some "fix: handle \"quoted\" args" :=
  ⟨by decide, by decide, by decide⟩

/-- Claim C4, counterexample: when reading the file back after the editor
exits fails, the edit step ends with the temporary file still on disk. -/
theorem c4_read_failure_leaves_tempfile :
    editStep "feat: x" true none = ⟨none, true⟩ := by decide

/-- Claim C4 (amended): the temporary file is deleted exactly when the
editor launch and the read-back both succeed; on a failing path the
exception propagates to the loop boundary and the file is left on disk. -/
theorem c4_cleanup_amended (commitMessage : String) (editorLaunchOk : Bool)
    (readResult : Option String) :
    (editStep commitMessage editorLaunchOk readResult).tempFileOnDisk = false ↔
      editorLaunchOk = true ∧ readResult ≠ none := by
  cases editorLaunchOk <;> cases readResult <;> simp [editStep]

/-- Claim C5 (confirmed): provider resolution is a total function of the
case-folded identifier, and every identifier other than (case-folded)
"openai" or "anthropic" resolves to the default OpenAI implementation. -/
theorem c5_provider_resolution :
    (∀ s t : String, jsToLowerCase s = jsToLowerCase t →
      getLLMProvider s = getLLMProvider t) ∧
    (∀ s : String, jsToLowerCase s ≠ "openai" → jsToLowerCase s ≠ "anthropic" →
      getLLMProvider s = LLMProviderKind.openai) := by
  constructor
  · intro s t h
    simp [getLLMProvider, h]
  · intro s h1 h2
    simp [getLLMProvider, h1, h2]

theorem c5_provider_resolution_witness :
    getLLMProvider "Bogus" = LLMProviderKind.openai ∧
    getLLMProvider "OpenAI" = getLLMProvider "openai" ∧
    getLLMProvider "ANTHROPIC" = getLLMProvider "anthropic" :=
  ⟨c5_provider_resolution.2 "Bogus" (by decide) (by decide),
   c5_provider_resolution.1 "OpenAI" "openai" (by decide),
   c5_provider_resolution.1 "ANTHROPIC" "anthropic" (by decide)⟩

/-- Claim C6 (confirmed): the diff is read from version control exactly
once per session, and every provider invocation — the initial one and
every regenerate — receives that same captured diff. -/
theorem c6_diff_captured_once (gitDiff : String) (inputs provResps : List String)
    (edits : List (Option String)) (commitOk : Bool) :
    (∀ d ∈ (runSession gitDiff inputs provResps edits commitOk).providerDiffs,
        d = gitDiff) ∧
    (runSession gitDiff inputs provResps edits commitOk).diffReads = 1 := by
  unfold runSession
  by_cases hb : jsTrim gitDiff = ""
  · simp [hb]
  · rw [if_neg hb]
    cases provResps with
    | nil => simp
    | cons firstResp prest =>
        constructor
        · intro d hd
          simp at hd
          rcases hd with h | h
          · exact h
          · exact promptLoop_providerDiffs gitDiff firstResp inputs prest edits
              commitOk d h
        · simp [promptLoop_diffReads]

theorem c6_diff_captured_once_witness :
    (∀ d ∈ (runSession "+ add foo()" ["r", "x"] ["m1", "m2"] [] true).providerDiffs,
        d = "+ add foo()") ∧
    (runSession "+ add foo()" ["r", "x"] ["m1", "m2"] [] true).diffReads = 1 :=
  c6_diff_captured_once "+ add foo()" ["r", "x"] ["m1", "m2"] [] true

/-- Claim C7 (confirmed): a session in which the user enters "q" at a
PROMPTING step (after only edit/regenerate lines that returned to
PROMPTING) never issues a commit command and exits with code 0. -/
theorem c7_quit_no_commit (gitDiff : String) (pre post provResps : List String)
    (edits : List (Option String)) (commitOk : Bool)
    (hdiff : jsTrim gitDiff ≠ "")
    (hpre : ∀ x ∈ pre, x = "e" ∨ x = "r")
    (hprov : countEq "r" pre + 1 ≤ provResps.length)
    (hedit : countEq "e" pre ≤ edits.length)
    (heditok : ∀ e ∈ edits, e ≠ none) :
    (runSession gitDiff (pre ++ "q" :: post) provResps edits commitOk).commitCmds
      = [] ∧
    (runSession gitDiff (pre ++ "q" :: post) provResps edits commitOk).outcome
      = Outcome.exited 0 := by
  unfold runSession
  rw [if_neg hdiff]
  cases provResps with
  | nil => simp only [List.length_nil] at hprov; omega
  | cons firstResp prest =>
      have h := promptLoop_quit gitDiff pre post firstResp prest edits commitOk hpre
        (by simp only [List.length_cons] at hprov; omega) hedit heditok
      simpa using h

theorem c7_quit_no_commit_witness :
    (runSession "+ add foo()" (["r", "e"] ++ "q" :: ["x"]) ["m1", "m2"]
        [some "feat: y"] true).commitCmds = [] ∧
    (runSession "+ add foo()" (["r", "e"] ++ "q" :: ["x"]) ["m1", "m2"]
        [some "feat: y"] true).outcome = Outcome.exited 0 :=
  c7_quit_no_commit "+ add foo()" ["r", "e"] ["x"] ["m1", "m2"] [some "feat: y"]
    true (by decide) (by decide) (by decide) (by decide) (by decide)

/-- Claim C8 (confirmed): invoked without an apiKey, each provider throws
its "API key is required" error before issuing any network request, and in
particular does not return the fallback message. -/
theorem c8_missing_key_error (diff : String) (config : LLMProviderConfig)
    (hkey : config.apiKey = none)
    (fetchedO : FetchOutcome OpenAIResponse)
    (fetchedA : FetchOutcome AnthropicResponse) :
    OpenAIProvider.generateCommit diff config fetchedO
      = ⟨Except.error "API key is required for OpenAI provider", false⟩ ∧
    AnthropicProvider.generateCommit diff config fetchedA
      = ⟨Except.error "API key is required for Anthropic provider", false⟩ := by
  constructor <;>
    simp [OpenAIProvider.generateCommit, AnthropicProvider.generateCommit,
      strOptTruthy, hkey]

theorem c8_missing_key_error_witness :
    OpenAIProvider.generateCommit "+ x" ⟨none, none, none⟩ FetchOutcome.failure
      = ⟨Except.error "API key is required for OpenAI provider", false⟩ ∧
    AnthropicProvider.generateCommit "+ x" ⟨none, none, none⟩ FetchOutcome.failure
      = ⟨Except.error "API key is required for Anthropic provider", false⟩ :=
  c8_missing_key_error "+ x" ⟨none, none, none⟩ rfl FetchOutcome.failure
    FetchOutcome.failure

/-- Claim C9 (confirmed): any input line other than "e", "r" or "q"
(including the empty line, "Q", "yes", ...) behaves as a bare confirm: the
loop issues the commit command built from the current message and
terminates. -/
theorem c9_default_confirm (diff commitMessage answer : String)
    (rest provResps : List String) (edits : List (Option String)) (commitOk : Bool)
    (h1 : answer ≠ "e") (h2 : answer ≠ "r") (h3 : answer ≠ "q") :
    promptLoop diff commitMessage (answer :: rest) provResps edits commitOk
      = promptLoop diff commitMessage ("" :: rest) provResps edits commitOk ∧
    (promptLoop diff commitMessage (answer :: rest) provResps edits
        commitOk).commitCmds = [buildCommitCommand commitMessage] ∧
    (promptLoop diff commitMessage (answer :: rest) provResps edits
        commitOk).outcome = Outcome.exited (if commitOk then 0 else 1) := by
  refine ⟨?_, ?_, ?_⟩ <;> simp [promptLoop, h1, h2, h3]

theorem c9_default_confirm_witness :
    promptLoop "+ x" "feat: y" ("Q" :: []) ["m2"] [] true
      = promptLoop "+ x" "feat: y" ("" :: []) ["m2"] [] true ∧
    (promptLoop "+ x" "feat: y" ("Q" :: []) ["m2"] [] true).commitCmds
      = [buildCommitCommand "feat: y"] ∧
    (promptLoop "+ x" "feat: y" ("Q" :: []) ["m2"] [] true).outcome
      = Outcome.exited (if true then 0 else 1) :=
  c9_default_confirm "+ x" "feat: y" "Q" [] ["m2"] [] true (by decide) (by decide)
    (by decide)

/-- Claim C10, counterexample: a successfully parsed content consisting of
exactly two double-quote characters is truthy, passes the fallback check,
and is then stripped to the empty string — so a provider call can return
the empty string as the commit message. -/
theorem c10_empty_content_counterexample :
    OpenAIProvider.generateCommit "+ x" ⟨some "k", none, none⟩
        (FetchOutcome.success ⟨some [⟨some ⟨some "\"\""⟩⟩]⟩)
      = ⟨Except.ok "", true⟩ := by decide

/-- Claim C10 (amended): when the extracted content is absent or the empty
string, generateCommit returns the fallback literal even though no error
occurred; however a provider call returns the empty string exactly when
the extracted content is the one- or two-character all-quote string. -/
theorem c10_empty_content_amended (diff : String) (config : LLMProviderConfig)
    (hkey : strOptTruthy config.apiKey = true)
    (dataO : OpenAIResponse) (dataA : AnthropicResponse) :
    ((dataO.extractContent = none ∨ dataO.extractContent = some "") →
      OpenAIProvider.generateCommit diff config (FetchOutcome.success dataO)
        = ⟨Except.ok "chore: update code", true⟩) ∧
    ((dataA.extractContent = none ∨ dataA.extractContent = some "") →
      AnthropicProvider.generateCommit diff config (FetchOutcome.success dataA)
        = ⟨Except.ok "chore: update code", true⟩) ∧
    ((OpenAIProvider.generateCommit diff config
        (FetchOutcome.success dataO)).result = Except.ok "" ↔
      dataO.extractContent = some "\"" ∨ dataO.extractContent = some "\"\"") ∧
    ((AnthropicProvider.generateCommit diff config
        (FetchOutcome.success dataA)).result = Except.ok "" ↔
      dataA.extractContent = some "\"" ∨ dataA.extractContent = some "\"\"") := by
  have hO : OpenAIProvider.generateCommit diff config (FetchOutcome.success dataO)
      = ⟨Except.ok (cleanLLMResponse
          (jsOrDefault dataO.extractContent "chore: update code")), true⟩ := by
    simp [OpenAIProvider.generateCommit, hkey]
  have hA : AnthropicProvider.generateCommit diff config (FetchOutcome.success dataA)
      = ⟨Except.ok (cleanLLMResponse
          (jsOrDefault dataA.extractContent "chore: update code")), true⟩ := by
    simp [AnthropicProvider.generateCommit, hkey]
  refine ⟨?_, ?_, ?_, ?_⟩
  · intro h
    rw [hO, jsOrDefault_of_absent_or_empty _ _ h,
      show cleanLLMResponse "chore: update code" = "chore: update code" from by decide]
  · intro h
    rw [hA, jsOrDefault_of_absent_or_empty _ _ h,
      show cleanLLMResponse "chore: update code" = "chore: update code" from by decide]
  · rw [hO]
    show Except.ok _ = Except.ok "" ↔ _
    simp only [Except.ok.injEq]
    exact clean_or_default_eq_empty_iff dataO.extractContent
  · rw [hA]
    show Except.ok _ = Except.ok "" ↔ _
    simp only [Except.ok.injEq]
    exact clean_or_default_eq_empty_iff dataA.extractContent

theorem c10_empty_content_amended_witness :
    ((OpenAIResponse.extractContent ⟨none⟩ = none ∨
        OpenAIResponse.extractContent ⟨none⟩ = some "") →
      OpenAIProvider.generateCommit "+ x" ⟨some "k", none, none⟩
          (FetchOutcome.success ⟨none⟩)
        = ⟨Except.ok "chore: update code", true⟩) ∧
    ((AnthropicResponse.extractContent ⟨none⟩ = none ∨
        AnthropicResponse.extractContent ⟨none⟩ = some "") →
      AnthropicProvider.generateCommit "+ x" ⟨some "k", none, none⟩
          (FetchOutcome.success ⟨none⟩)
        = ⟨Except.ok "chore: update code", true⟩) ∧
    ((OpenAIProvider.generateCommit "+ x" ⟨some "k", none, none⟩
        (FetchOutcome.success ⟨none⟩)).result = Except.ok "" ↔
      OpenAIResponse.extractContent ⟨none⟩ = some "\"" ∨
        OpenAIResponse.extractContent ⟨none⟩ = some "\"\"") ∧
    ((AnthropicProvider.generateCommit "+ x" ⟨some "k", none, none⟩
        (FetchOutcome.success ⟨none⟩)).result = Except.ok "" ↔
      AnthropicResponse.extractContent ⟨none⟩ = some "\"" ∨
        AnthropicResponse.extractContent ⟨none⟩ = some "\"\"") :=
  c10_empty_content_amended "+ x" ⟨some "k", none, none⟩ (by decide) ⟨none⟩ ⟨none⟩

end AiCommit
